import Mathlib

/-!
# Verification of go-peek's core caching and enrichment components

A shallow embedding of the two cooperating components of the go-peek
repository that the specification calls THE CORE:

* `pkg/intel/global.go` — the `GlobalCache`: a TTL-evicting, self-persisting
  IP → `Asset` cache with a background housekeeper (prune timer + dump timer
  + cancellation) and a fallback to an external directory service ("wise").
* `pkg/enrich/enrich.go` — the `Handler`: registry load from a persistent
  store, event decoding dispatch, asset-field enrichment, miss tracking and
  counters.

Go maps (`sync.Map`, plain maps) are embedded as association lists with
overwrite-on-store semantics; timestamps are integers (`Int`, so that the
Go `time.Time.Sub` difference can be negative); fallible operations return
`Except`/`Option`.  Types that live outside the provided sources
(`meta.Asset`, `providentia.Record`, `events.GameEvent`, the wise client)
are modelled from the specification, as noted on each definition.
-/

/-- Modelled from the spec: `meta.Asset`, the unresolved `{ip, host}` stub /
resolved asset metadata unit (§3 "Event asset fields", "AssetRecord").  The
`ip` is `Option` because Go code checks `asset.IP != nil`; further free-form
attributes are irrelevant to the claims and omitted. -/
structure MetaAsset where
  ip : Option String
  host : String
  deriving DecidableEq, Repr

/-- Go's `net.IP.String()` is total: a `nil` IP prints as `"<nil>"`.  Used
where the source keys a map by `Data.IP.String()`. -/
def MetaAsset.ipString (a : MetaAsset) : String :=
  match a.ip with
  | some s => s
  | none => "<nil>"

/-- `intel.Asset` (the cache record stored in `GlobalCache.assets`): carries
the directory data, the `IsAsset` flag and the `updated` timestamp.  The
struct itself is declared outside the provided sources; its fields are taken
from their uses in `pkg/intel/global.go` (`a.Data`, `a.IsAsset`, `a.updated`,
`obj.Update()`, `obj.Data.IP.String()`) and from the spec's AssetRecord
entity (§3). -/
structure Asset where
  data : MetaAsset
  IsAsset : Bool
  updated : Int
  deriving DecidableEq, Repr

/-- `Asset.Update` refreshes the record's timestamp; modelled from the spec:
"`lastUpdated`: timestamp set on every create/refresh" (§3).  Called on every
record loaded from the persistence file at startup. -/
def Asset.Update (a : Asset) (now : Int) : Asset :=
  { a with updated := now }

/-! ## Association-list embedding of Go maps -/

/-- `m.Store k v` of a Go map / `sync.Map`: overwrite any previous binding
of `k`. -/
def mapStore (m : List (String × Asset)) (k : String) (v : Asset) :
    List (String × Asset) :=
  (k, v) :: m.filter (fun e => e.1 ≠ k)

/-- `m.Load k` of a Go map / `sync.Map`. -/
def mapLoad (m : List (String × Asset)) (k : String) : Option Asset :=
  (m.find? (fun e => e.1 = k)).map Prod.snd

/-- `m.Delete k` of a `sync.Map`. -/
def mapDelete (m : List (String × Asset)) (k : String) :
    List (String × Asset) :=
  m.filter (fun e => e.1 ≠ k)

/-! ## GlobalCache and GetIP (`pkg/intel/global.go`) -/

/-- Modelled from the spec: outcome of one synchronous directory-service
call, `lookup(ip) -> (AssetData, found, error)` (§2, §6 "DirectoryClient
contract").  The wise client package is not among the provided sources. -/
inductive WiseResult where
  | found (data : MetaAsset)
  | notFound
  | errored (msg : String)
  deriving DecidableEq, Repr

/-- The state of a `GlobalCache` relevant to `GetIP`: the concurrent
`assets` map, the optional wise (directory service) handle, and the bounded
error channel (embedded as the list of messages sent so far). -/
structure GlobalCache where
  assets : List (String × Asset)
  wise : Option (String → WiseResult)
  Errs : List String

/-- `GlobalCache.GetIP` from `pkg/intel/global.go` lines 199–231.  On a hit
returns the stored record and `true`.  On a miss it builds a fresh negative
record stamped `now`; when no wise handle is configured it returns that
record and `false` immediately (note: without storing it); otherwise it
consults the directory service, promotes the record on success, sends a
directory error to the error channel, stores the record and returns it with
`false`. -/
def GetIP (g : GlobalCache) (key : String) (now : Int) :
    Asset × Bool × GlobalCache :=
  match mapLoad g.assets key with
  | some a => (a, true, g)
  | none =>
    let asset : Asset := { data := ⟨none, ""⟩, IsAsset := false, updated := now }
    match g.wise with
    | none => (asset, false, g)
    | some w =>
      match w key with
      | .errored m =>
        (asset, false,
          { g with assets := mapStore g.assets key asset, Errs := m :: g.Errs })
      | .found d =>
        let a : Asset := { asset with data := d, IsAsset := true }
        (a, false, { g with assets := mapStore g.assets key a })
      | .notFound =>
        (asset, false, { g with assets := mapStore g.assets key asset })

/-! ## Housekeeper: prune pass (`pkg/intel/global.go` lines 109–136) -/

/-- Default prune interval set in `NewGlobalCache`: 30 seconds. -/
def pruneIntervalDefault : Nat := 30

/-- Default prune period (TTL window) set in `NewGlobalCache`: 120 seconds. -/
def prunePeriodDefault : Int := 120

/-- Default dump interval set in `NewGlobalCache`: 5 seconds. -/
def dumpIntervalDefault : Nat := 5

/-- The deletion condition of the prune branch: `now.Sub(a.updated) >
gc.prune.period && !a.IsAsset` (`global.go` lines 120 and 125; the `Asset`
and `*Asset` arms of the type switch test the same condition). -/
def pruneCond (now window : Int) (a : Asset) : Bool :=
  now - a.updated > window && !a.IsAsset

/-- One prune pass: `gc.assets.Range` iterates every entry of a snapshot of
the map and calls `gc.assets.Delete(k)` on each entry meeting `pruneCond`
(`global.go` lines 116–133).  Embedded as a fold over the entry list that
deletes from the accumulated map. -/
def prunePass (now window : Int) (m : List (String × Asset)) :
    List (String × Asset) :=
  m.foldl
    (fun acc e => if pruneCond now window e.2 then mapDelete acc e.1 else acc)
    m

/-! ## Housekeeper: dump branch and startup load -/

/-- The dump branch's collection phase (`global.go` lines 142–155):
`gc.assets.Range` appends every entry with `IsAsset` true to `stuff` (both
the value and the pointer arm of the type switch dereference to the same
record). -/
def collectPositives (m : List (String × Asset)) : List Asset :=
  (m.map Prod.snd).filter (fun a => a.IsAsset)

/-- One dump cycle over the persistence file (`global.go` lines 137–175):
collect the positive records; if the collection is empty the cycle is
skipped (`continue loop`) and the file keeps its previous content; otherwise
`os.Create` truncates the file and one JSON object is written per line.  The
file is embedded as the list of records its lines encode (newline-delimited
JSON, §6). -/
def dumpCycle (m : List (String × Asset)) (oldFile : List Asset) :
    List Asset :=
  let stuff := collectPositives m
  if stuff.isEmpty then oldFile else stuff

/-- The startup load loop (`global.go` lines 83–93): each line of the
persistence file is unmarshalled to an `Asset`, refreshed with
`obj.Update()` and stored under `obj.Data.IP.String()`. -/
def loadAssets (lines : List Asset) (now : Int) : List (String × Asset) :=
  lines.foldl (fun acc a => mapStore acc a.data.ipString (a.Update now)) []

/-! ## Construction: persistence-path setup (`global.go` lines 68–97) -/

/-- A node of the embedded filesystem: `os.Stat` metadata, whether the
later `os.Open` call fails, and — for a regular file that opens — the
outcome of `json.Unmarshal` on each of its lines (`.error msg` models a
malformed line). -/
structure FileNode where
  IsDir : Bool
  openFails : Bool
  lines : List (Except String Asset)

/-- Construction-time failures of the persistence-path setup: the `os.Stat`
error (`global.go` lines 69–71), the directory rejection (lines 73–75), the
`os.Open` error (lines 79–81) and a malformed line's `json.Unmarshal` error
(lines 86–89) — each returned fatally, aborting construction. -/
inductive ConstructErr where
  | statErr (path : String)
  | isDirErr (path : String)
  | openErr (path : String)
  | parseErr (msg : String)
  deriving DecidableEq, Repr

/-- The scanner loop of the startup load (`global.go` lines 84–93): each
line is unmarshalled; a malformed line aborts construction with the
unmarshal error; a well-formed record is refreshed with `obj.Update()` and
stored under `obj.Data.IP.String()`. -/
def scanLines (now : Int) :
    List (Except String Asset) → List (String × Asset) →
      Except ConstructErr (List (String × Asset))
  | [], acc => .ok acc
  | line :: rest, acc =>
    match line with
    | .error msg => .error (.parseErr msg)
    | .ok obj => scanLines now rest (mapStore acc obj.data.ipString (obj.Update now))

/-- The persistence-path setup of `NewGlobalCache` (`global.go` lines
68–97): when `c.DumpJSONAssets` is empty the cache starts empty; otherwise
`os.Stat` is called and its error returned fatally (a missing file is a
fatal stat error — no cache handle is produced); a directory is rejected
with a fatal error; then (after the successful stat, the
`utils.FileNotExists` guard on line 78 is always passed) `os.Open` is
called and its error returned fatally; finally the file's lines are scanned
by `scanLines`, a malformed line aborting construction fatally.  The
filesystem is embedded as a partial map from paths to nodes; `none` means
`os.Stat` fails. -/
def setupPersistence (path : String) (fs : String → Option FileNode)
    (now : Int) : Except ConstructErr (List (String × Asset)) :=
  if path = "" then .ok []
  else
    match fs path with
    | none => .error (.statErr path)
    | some node =>
      if node.IsDir then .error (.isDirErr path)
      else if node.openFails then .error (.openErr path)
      else scanLines now node.lines []

/-! ## Housekeeper event loop timing (`global.go` lines 98–179)

The loop body re-creates both tickers on every iteration:

    for {
      tick := time.NewTicker(gc.prune.interval)
      dump := time.NewTicker(gc.persist.dump)
      select { <-gc.ctx.Done() | <-tick.C | <-dump.C }
    }

so at each iteration the three candidate wake-ups are: the cancellation
signal (ready from `cancelAt` on), a prune tick due a full `pruneInterval`
after the iteration started, and a dump tick due a full `dumpInterval`
after the iteration started.  The `select` completes with the earliest
ready candidate.  We embed the loop as a discrete-event run producing the
sequence of branches taken. -/

/-- The branch a `select` iteration of the housekeeper loop takes. -/
inductive HkEvent where
  | cancelled
  | prune
  | dump
  deriving DecidableEq, Repr

/-- One iteration of the housekeeper loop starting at absolute time `now`:
both tickers are created afresh, so the prune candidate fires at
`now + pruneIv` and the dump candidate at `now + dumpIv`; cancellation is
ready from `cancelAt` on.  Returns the branch taken and the absolute time
the iteration completes.  Ties between the timers (only possible when the
two intervals coincide) and the cancellation signal are resolved in favour
of cancellation first and the dump ticker second; with the default
intervals (30 s vs 5 s) no timer tie arises. -/
def hkStep (pruneIv dumpIv : Nat) (cancelAt now : Nat) : HkEvent × Nat :=
  let tickAt := now + pruneIv
  let dumpAt := now + dumpIv
  if cancelAt ≤ min tickAt dumpAt then (.cancelled, cancelAt)
  else if dumpAt ≤ tickAt then (.dump, dumpAt)
  else (.prune, tickAt)

/-- Run the housekeeper loop from time `now` until the cancellation branch
is taken (or `fuel` iterations elapse), returning the trace of branches. -/
def hkRun (pruneIv dumpIv : Nat) (cancelAt : Nat) :
    Nat → Nat → List HkEvent
  | 0, _ => []
  | fuel + 1, now =>
    match hkStep pruneIv dumpIv cancelAt now with
    | (.cancelled, _) => [.cancelled]
    | (ev, t) => ev :: hkRun pruneIv dumpIv cancelAt fuel t

/-! ## Round-trip helpers -/

/-- The one-entry all-positive cache used as the concrete input of the
round-trip claim. -/
def roundTripSample : List (String × Asset) :=
  [("10.0.0.7", ⟨⟨some "10.0.0.7", "web"⟩, true, 3⟩)]

/-! ## EnrichmentHandler (`pkg/enrich/enrich.go`) -/

/-- Modelled from the spec: `providentia.Record`, the AssetRegistryRecord —
"a record carrying one-to-many lookup keys (every IP and hostname the
external registry associates with one physical/logical asset) and a
canonical `toAsset()` projection" (§3).  The providentia package is not
among the provided sources; `Keys` and `Asset` are the two methods
`enrich.go` calls on it. -/
structure Record where
  keys : List String
  asset : MetaAsset
  deriving DecidableEq, Repr

/-- `value.Keys()` of a registry record. -/
def Record.Keys (r : Record) : List String := r.keys

/-- `val.Asset()`: the record's canonical asset projection. -/
def Record.Asset (r : Record) : MetaAsset := r.asset

/-- The per-kind parse-error counters of `enrich.Counts`
(`countsParseErrs`). -/
structure CountsParseErrs where
  Suricata : Nat
  Windows : Nat
  Syslog : Nat
  Snoopy : Nat
  deriving DecidableEq, Repr

/-- `enrich.Counts`: the handler's observability counters. -/
structure Counts where
  Events : Nat
  MissingMeta : Nat
  AssetPickups : Nat
  AssetUpdates : Nat
  Assets : Nat
  ParseErrs : CountsParseErrs
  deriving DecidableEq, Repr

/-- `enrich.Handler`: counters, the missing-lookup set (a Go
`map[string]bool` used as a set, embedded as a duplicate-free list built by
insert-if-absent), and the registry map `assets` (embedded as a function,
`none` meaning the key is absent). -/
structure Handler where
  counts : Counts
  missingLookupSet : List String
  assets : String → Option Record

/-- Insertion `h.missingLookupSet[host] = true` into the Go set: a no-op
when the key is already present. -/
def setInsert (s : List String) (k : String) : List String :=
  if k ∈ s then s else k :: s

/-- The registry-population loop of `NewHandler` (`enrich.go` lines
162–174): each record scanned from the store is decoded, and for every key
it exposes, `assets[key] = obj` is assigned (an unconditional Go map
assignment).  The resulting registry map is embedded as a function; the
records are given in scan order. -/
def insertRecord (m : String → Option Record) (r : Record) :
    String → Option Record :=
  r.Keys.foldl (fun m' k => fun q => if q = k then some r else m' q) m

/-- The full registry-population loop of `NewHandler`: one `insertRecord`
per scanned record, in scan order, starting from the empty map. -/
def loadRegistry (records : List Record) : String → Option Record :=
  records.foldl insertRecord (fun _ => none)

/-- Modelled from the spec: `events.Atomic`, the "fixed enumeration covering
the supported telemetry kinds" (§4.2).  The events package is not among the
provided sources; the five members below are the ones `Decode` names, and
`SimpleE` stands for the enumeration's further members that no `case` of the
`Decode` switch handles (the real enumeration is larger than the switch —
e.g. the kind used for plain pass-through messages). -/
inductive Atomic where
  | SuricataE
  | EventLogE
  | SysmonE
  | SyslogE
  | SnoopyE
  | SimpleE
  deriving DecidableEq, Repr

/-- Modelled from the spec: `meta.GameAsset`, the asset sub-object every
decoded event carries — "an `asset` sub-object and optional
`source`/`destination` sub-objects (each an unresolved `{ip, host}` stub
before enrichment)" (§3 "Event asset fields").  `Enrich` reads and rewrites
exactly these three fields through the pointer `event.GetAsset()`
returns. -/
structure GameAsset where
  Asset : MetaAsset
  Source : Option MetaAsset
  Destination : Option MetaAsset
  deriving DecidableEq, Repr

/-- Modelled from the spec: `events.GameEvent`, a decoded typed event.  The
events package is not among the provided sources; the only method the
enrichment handler uses is `GetAsset()`, which returns the event's asset
sub-object or nil ("fails … if the event exposes no asset sub-object at
all", §4.2), so the event is embedded as that optional sub-object plus the
rest of its payload, which enrichment never touches. -/
structure GameEvent where
  meta : Option GameAsset
  payload : String
  deriving DecidableEq, Repr

/-- `event.GetAsset()`. -/
def GameEvent.GetAsset (e : GameEvent) : Option GameAsset := e.meta

/-- Modelled from the spec: the per-kind structural decodes that
`json.Unmarshal` performs into `events.Suricata`, `events.DynamicWinlogbeat`,
`events.Syslog` and `events.Snoopy` (§4.2 "dispatches … to the matching
structural decode").  Those event types are not among the provided sources,
so each unmarshal is an abstract function from the raw bytes to either the
decoded event or the unmarshal error's message. -/
structure Unmarshal where
  suricata : String → Except String GameEvent
  winlogbeat : String → Except String GameEvent
  syslog : String → Except String GameEvent
  snoopy : String → Except String GameEvent

/-- `Handler.Decode` (`enrich.go` lines 85–120): increments `Counts.Events`
first, then dispatches on the kind.  A failed unmarshal increments that
kind's parse-error counter (`EventLogE` and `SysmonE` share the `Windows`
counter) and returns `nil, err` — the unmarshal error itself.  A kind no
`case` handles falls through the switch and returns the nil `event` with a
nil error. -/
def Decode (u : Unmarshal) (h : Handler) (raw : String) (kind : Atomic) :
    Except String (Option GameEvent) × Handler :=
  let h := { h with counts := { h.counts with Events := h.counts.Events + 1 } }
  match kind with
  | .SuricataE =>
    match u.suricata raw with
    | .error e =>
      (.error e,
        { h with counts := { h.counts with
            ParseErrs := { h.counts.ParseErrs with
              Suricata := h.counts.ParseErrs.Suricata + 1 } } })
    | .ok ev => (.ok (some ev), h)
  | .EventLogE | .SysmonE =>
    match u.winlogbeat raw with
    | .error e =>
      (.error e,
        { h with counts := { h.counts with
            ParseErrs := { h.counts.ParseErrs with
              Windows := h.counts.ParseErrs.Windows + 1 } } })
    | .ok ev => (.ok (some ev), h)
  | .SyslogE =>
    match u.syslog raw with
    | .error e =>
      (.error e,
        { h with counts := { h.counts with
            ParseErrs := { h.counts.ParseErrs with
              Syslog := h.counts.ParseErrs.Syslog + 1 } } })
    | .ok ev => (.ok (some ev), h)
  | .SnoopyE =>
    match u.snoopy raw with
    | .error e =>
      (.error e,
        { h with counts := { h.counts with
            ParseErrs := { h.counts.ParseErrs with
              Snoopy := h.counts.ParseErrs.Snoopy + 1 } } })
    | .ok ev => (.ok (some ev), h)
  | .SimpleE => (.ok none, h)

/-- `ErrMissingAssetData{Event: event}`, the error `Enrich` returns when the
event exposes no asset sub-object (`enrich.go` lines 19–23). -/
structure ErrMissingAssetData where
  Event : GameEvent
  deriving DecidableEq, Repr

/-- `Handler.assetLookup` (`enrich.go` lines 139–152): try the stub's IP as
a registry key, then the non-empty hostname; a hostname that matches no key
is recorded in the missing-lookup set; the original stub is returned
unchanged on any miss.  The Go method has a value receiver but mutates the
shared `missingLookupSet` map, so the possibly-updated handler is returned
alongside the resolved asset. -/
def assetLookup (h : Handler) (asset : MetaAsset) : MetaAsset × Handler :=
  let hostPath : MetaAsset × Handler :=
    if asset.host ≠ "" then
      match h.assets asset.host with
      | some val => (val.Asset, h)
      | none =>
        (asset,
          { h with missingLookupSet := setInsert h.missingLookupSet asset.host })
    else (asset, h)
  match asset.ip with
  | some ip =>
    match h.assets ip with
    | some val => (val.Asset, h)
    | none => hostPath
  | none => hostPath

/-- `Handler.Enrich` (`enrich.go` lines 122–137): fails with
`ErrMissingAssetData` when `event.GetAsset()` is nil, leaving the event as
it was; otherwise replaces `fullAsset.Asset` with the lookup result and
replaces `Source` and `Destination` the same way only when they are
non-nil, then returns nil.  The in-place mutation through the `GetAsset`
pointer is embedded by returning the rewritten event together with the
updated handler. -/
def Enrich (h : Handler) (event : GameEvent) :
    Except ErrMissingAssetData (GameEvent × Handler) :=
  match event.GetAsset with
  | none => .error ⟨event⟩
  | some fullAsset =>
    let (a, h1) := assetLookup h fullAsset.Asset
    let (src, h2) :=
      match fullAsset.Source with
      | none => (none, h1)
      | some s =>
        let (s1, h') := assetLookup h1 s
        (some s1, h')
    let (dst, h3) :=
      match fullAsset.Destination with
      | none => (none, h2)
      | some d =>
        let (d1, h') := assetLookup h2 d
        (some d1, h')
    .ok ({ event with meta := some ⟨a, src, dst⟩ }, h3)

/-- A directory-less cache with no entries, used as the concrete input for
the GetIP claims. -/
def sampleCache : GlobalCache := ⟨[], none, []⟩

/-- The parse-error counter `Decode` charges a failed decode of the given
kind to: `SuricataE → Suricata`, the two Windows kinds (`EventLogE`,
`SysmonE`) → `Windows`, `SyslogE → Syslog`, `SnoopyE → Snoopy`; a kind no
`case` handles has no counter. -/
def parseErrCounter (kind : Atomic) (c : CountsParseErrs) : Option Nat :=
  match kind with
  | .SuricataE => some c.Suricata
  | .EventLogE | .SysmonE => some c.Windows
  | .SyslogE => some c.Syslog
  | .SnoopyE => some c.Snoopy
  | .SimpleE => none

/-- The structural decode the `Decode` switch dispatches the given kind to
(`none` for a kind no `case` handles). -/
def kindUnmarshal (kind : Atomic) (u : Unmarshal) :
    Option (String → Except String GameEvent) :=
  match kind with
  | .SuricataE => some u.suricata
  | .EventLogE | .SysmonE => some u.winlogbeat
  | .SyslogE => some u.syslog
  | .SnoopyE => some u.snoopy
  | .SimpleE => none

/-- An unmarshal oracle on which every structural decode fails with the
same cause, used as a concrete input for the Decode claims. -/
def failingUnmarshal : Unmarshal :=
  ⟨fun _ => .error "bad", fun _ => .error "bad",
    fun _ => .error "bad", fun _ => .error "bad"⟩

/-- A fresh handler (zero counters, empty missing-lookup set, empty
registry), used as a concrete input for the Decode and Enrich claims. -/
def freshHandler : Handler :=
  ⟨⟨0, 0, 0, 0, 0, ⟨0, 0, 0, 0⟩⟩, [], fun _ => none⟩

/-- The registry lookup's first step fails: either the stub carries no IP
(Go: `asset.IP == nil`) or its IP is not a registry key. -/
def ipLookupMiss (h : Handler) (a : MetaAsset) : Prop :=
  match a.ip with
  | none => True
  | some ip => h.assets ip = none

/-- A handler whose registry holds one record reachable under the keys
`"10.0.0.1"` and `"web01"`, used as a concrete input for the lookup
claims. -/
def web01Record : Record := ⟨["10.0.0.1", "web01"], ⟨some "10.0.0.1", "web01"⟩⟩

def web01Handler : Handler :=
  ⟨⟨0, 0, 0, 0, 0, ⟨0, 0, 0, 0⟩⟩, [],
    fun k => if k = "10.0.0.1" ∨ k = "web01" then some web01Record else none⟩

/-! # Theorems -/

/-! ## C1 — GetIP without a directory service -/

/-- C1: the claim is false on the code.  With no directory service
configured and the IP `"10.0.0.1"` not in the cache, `GetIP` returns early
without storing anything — the cache still has no binding for the key — and
a second `GetIP` for the same IP is again a miss returning `false`, not a
pure cache hit returning `true`. -/
theorem c1_counterexample :
    mapLoad (GetIP sampleCache "10.0.0.1" 0).2.2.assets "10.0.0.1" = none ∧
    (GetIP (GetIP sampleCache "10.0.0.1" 0).2.2 "10.0.0.1" 1).2.1 = false :=
  ⟨rfl, rfl⟩

/-- C1 (amended): for every IP not present in the cache, when no directory
service is configured, `GetIP` returns a record with `IsAsset = false`
(stamped with the current time) and `foundInCache = false`, but does NOT
store the record: the cache is returned unchanged, so a second `GetIP` for
the same IP is again a miss returning `false` (it re-resolves). -/
theorem c1_amended (g : GlobalCache) (key : String) (now now' : Int)
    (hw : g.wise = none) (hl : mapLoad g.assets key = none) :
    GetIP g key now =
      ({ data := ⟨none, ""⟩, IsAsset := false, updated := now }, false, g) ∧
    (GetIP g key now').2.1 = false := by
  constructor
  · unfold GetIP
    rw [hl, hw]
  · unfold GetIP
    rw [hl, hw]

/-- Witness for C1 (amended) at the concrete empty directory-less cache. -/
theorem c1_amended_witness :
    sampleCache.wise = none ∧
    mapLoad sampleCache.assets "10.0.0.1" = none ∧
    (GetIP sampleCache "10.0.0.1" 0 =
      ({ data := ⟨none, ""⟩, IsAsset := false, updated := 0 }, false,
        sampleCache) ∧
    (GetIP sampleCache "10.0.0.1" 1).2.1 = false) :=
  ⟨rfl, rfl, c1_amended sampleCache "10.0.0.1" 0 1 rfl rfl⟩

/-! ## C2 — registry population in NewHandler -/

theorem insertRecord_apply (r : Record) :
    ∀ (ks : List String) (m : String → Option Record) (q : String),
      ks.foldl (fun m' k => fun q' => if q' = k then some r else m' q') m q
        = if q ∈ ks then some r else m q := by
  intro ks
  induction ks with
  | nil => simp
  | cons k ks ih =>
    intro m q
    rw [List.foldl_cons, ih]
    by_cases hq : q ∈ ks
    · simp [hq]
    · by_cases hk : q = k <;> simp [hq, hk]

theorem loadRegistry_foldl_apply :
    ∀ (rs : List Record) (m : String → Option Record) (q : String),
      rs.foldl insertRecord m q
        = (rs.reverse.find? (fun s => decide (q ∈ s.keys))).or (m q) := by
  intro rs
  induction rs with
  | nil => simp
  | cons r rs ih =>
    intro m q
    rw [List.foldl_cons, ih, List.reverse_cons, List.find?_append,
      Option.or_assoc]
    congr 1
    unfold insertRecord Record.Keys
    rw [insertRecord_apply]
    by_cases hq : q ∈ r.keys <;> simp [hq, List.find?]

theorem loadRegistry_apply (rs : List Record) (q : String) :
    loadRegistry rs q = rs.reverse.find? (fun s => decide (q ∈ s.keys)) := by
  unfold loadRegistry
  rw [loadRegistry_foldl_apply, Option.or_none]

/-- C2: the claim is false on the code.  With two scanned records exposing
the same key `"k"`, the registry maps `"k"` to the *later* record, not the
earlier one: the map assignment in `NewHandler` is unconditional, so the
later record overwrites the earlier. -/
theorem c2_counterexample :
    loadRegistry
        [⟨["k"], ⟨some "10.0.0.1", "web01"⟩⟩, ⟨["k"], ⟨some "10.0.0.2", "web02"⟩⟩]
        "k" ≠ some ⟨["k"], ⟨some "10.0.0.1", "web01"⟩⟩ ∧
    loadRegistry
        [⟨["k"], ⟨some "10.0.0.1", "web01"⟩⟩, ⟨["k"], ⟨some "10.0.0.2", "web02"⟩⟩]
        "k" = some ⟨["k"], ⟨some "10.0.0.2", "web02"⟩⟩ := by
  constructor
  · decide
  · decide

/-- C2 (amended): when `NewHandler` loads the registry, the mapping
`key -> record` is assigned unconditionally, so a later record with a
colliding key DOES overwrite the earlier one (last-writer-wins in scan
order); the final registry key set still equals the union of `Keys()` over
all ingested records. -/
theorem c2_amended (records : List Record) (r : Record) (k : String) :
    ((loadRegistry records k).isSome ↔ ∃ s ∈ records, k ∈ s.Keys) ∧
    loadRegistry (records ++ [r]) k =
      (if k ∈ r.Keys then some r else loadRegistry records k) := by
  constructor
  · rw [loadRegistry_apply, List.find?_isSome]
    constructor
    · rintro ⟨s, hs, hk⟩
      exact ⟨s, List.mem_reverse.mp hs, of_decide_eq_true hk⟩
    · rintro ⟨s, hs, hk⟩
      exact ⟨s, List.mem_reverse.mpr hs, decide_eq_true hk⟩
  · rw [loadRegistry_apply, loadRegistry_apply, List.reverse_append]
    unfold Record.Keys
    by_cases hk : k ∈ r.keys
    · simp [hk, List.find?]
    · simp [hk, List.find?]

/-! ## C3 — what one prune pass deletes -/

theorem pruneFold_mem (now w : Int) :
    ∀ (l acc : List (String × Asset)) (a : String × Asset),
      a ∈ l.foldl
            (fun acc e => if pruneCond now w e.2 then mapDelete acc e.1 else acc)
            acc
        ↔ a ∈ acc ∧ ∀ e ∈ l, pruneCond now w e.2 = true → e.1 ≠ a.1 := by
  intro l
  induction l with
  | nil => simp
  | cons e l ih =>
    intro acc a
    rw [List.foldl_cons, ih, List.forall_mem_cons]
    by_cases hc : pruneCond now w e.2 = true
    · simp only [hc, if_pos, mapDelete, List.mem_filter, decide_eq_true_eq,
        true_implies]
      constructor
      · rintro ⟨⟨ha, hne⟩, hl⟩
        exact ⟨ha, fun hk => hne hk.symm, hl⟩
      · rintro ⟨ha, hhd, hl⟩
        exact ⟨⟨ha, fun hk => hhd hk.symm⟩, hl⟩
    · rw [if_neg hc]
      simp only [hc, Bool.false_eq_true, false_implies, true_and]

theorem key_nodup_eq :
    ∀ {m : List (String × Asset)}, (m.map Prod.fst).Nodup →
      ∀ {a e : String × Asset}, a ∈ m → e ∈ m → e.1 = a.1 → e = a := by
  intro m
  induction m with
  | nil => intro _ a e ha; cases ha
  | cons x t ih =>
    intro hnd a e ha he hk
    rw [List.map_cons, List.nodup_cons] at hnd
    rcases List.mem_cons.mp ha with ha' | ha' <;>
      rcases List.mem_cons.mp he with he' | he'
    · rw [ha', he']
    · exfalso
      apply hnd.1
      rw [ha'] at hk
      rw [← hk]
      exact List.mem_map.mpr ⟨e, he', rfl⟩
    · exfalso
      apply hnd.1
      rw [he'] at hk
      rw [hk]
      exact List.mem_map.mpr ⟨a, ha', rfl⟩
    · exact ih hnd.2 ha' he' hk

/-- C3: one prune pass of the housekeeper keeps exactly the entries that
are positive (`IsAsset = true`) or whose age `now - lastUpdated` does not
exceed the prune window — equivalently, it deletes exactly the negative
entries older than the window, and every positive entry survives regardless
of age, for every cache state (the map's keys being duplicate-free, as a Go
map's always are). -/
theorem c3_prune_pass (now w : Int) (m : List (String × Asset))
    (hnd : (m.map Prod.fst).Nodup) (a : String × Asset) :
    a ∈ prunePass now w m ↔
      a ∈ m ∧ (a.2.IsAsset = true ∨ now - a.2.updated ≤ w) := by
  unfold prunePass
  rw [pruneFold_mem]
  constructor
  · rintro ⟨ham, hall⟩
    refine ⟨ham, ?_⟩
    have hnc : ¬(pruneCond now w a.2 = true) := fun hc => hall a ham hc rfl
    simp only [pruneCond, Bool.and_eq_true, Bool.not_eq_true', decide_eq_true_eq,
      not_and] at hnc
    by_cases hgt : now - a.2.updated > w
    · left
      cases hB : a.2.IsAsset
      · exact absurd hB (hnc hgt)
      · rfl
    · exact Or.inr (not_lt.mp hgt)
  · rintro ⟨ham, hor⟩
    refine ⟨ham, ?_⟩
    intro e hem hcond hke
    have he : e = a := key_nodup_eq hnd ham hem hke
    rw [he] at hcond
    simp only [pruneCond, Bool.and_eq_true, Bool.not_eq_true',
      decide_eq_true_eq] at hcond
    rcases hor with hA | hage
    · rw [hcond.2] at hA
      cases hA
    · exact absurd hcond.1 (not_lt.mpr hage)

/-- Witness for C3: a cache holding a stale negative entry, a stale positive
entry and a fresh negative entry; after the pass, the stale positive entry
is still present and retained entries are characterised as the theorem
states. -/
theorem c3_prune_pass_witness :
    (([("10.0.0.1", ⟨⟨some "10.0.0.1", "a"⟩, false, 0⟩),
       ("10.0.0.2", ⟨⟨some "10.0.0.2", "b"⟩, true, 0⟩),
       ("10.0.0.3", ⟨⟨some "10.0.0.3", "c"⟩, false, 150⟩)] :
        List (String × Asset)).map Prod.fst).Nodup ∧
    (("10.0.0.2", (⟨⟨some "10.0.0.2", "b"⟩, true, 0⟩ : Asset)) ∈
        prunePass 200 120
          [("10.0.0.1", ⟨⟨some "10.0.0.1", "a"⟩, false, 0⟩),
           ("10.0.0.2", ⟨⟨some "10.0.0.2", "b"⟩, true, 0⟩),
           ("10.0.0.3", ⟨⟨some "10.0.0.3", "c"⟩, false, 150⟩)] ↔
      (("10.0.0.2", (⟨⟨some "10.0.0.2", "b"⟩, true, 0⟩ : Asset)) ∈
          [("10.0.0.1", ⟨⟨some "10.0.0.1", "a"⟩, false, 0⟩),
           ("10.0.0.2", ⟨⟨some "10.0.0.2", "b"⟩, true, 0⟩),
           ("10.0.0.3", ⟨⟨some "10.0.0.3", "c"⟩, false, 150⟩)] ∧
        ((true : Bool) = true ∨ (200 : Int) - 0 ≤ 120))) :=
  ⟨by decide,
    c3_prune_pass 200 120
      [("10.0.0.1", ⟨⟨some "10.0.0.1", "a"⟩, false, 0⟩),
       ("10.0.0.2", ⟨⟨some "10.0.0.2", "b"⟩, true, 0⟩),
       ("10.0.0.3", ⟨⟨some "10.0.0.3", "c"⟩, false, 150⟩)]
      (by decide) ("10.0.0.2", ⟨⟨some "10.0.0.2", "b"⟩, true, 0⟩)⟩

/-! ## C4 — dump-then-reload round trip -/

theorem collectPositives_of_all_pos (m : List (String × Asset))
    (hpos : ∀ e ∈ m, e.2.IsAsset = true) :
    collectPositives m = m.map Prod.snd := by
  unfold collectPositives
  apply List.filter_eq_self.mpr
  intro a ha
  rcases List.mem_map.mp ha with ⟨e, he, rfl⟩
  exact hpos e he

theorem loadAssets_foldl (now : Int) :
    ∀ (lines : List Asset) (acc : List (String × Asset)),
      (∀ a ∈ lines, ∀ e ∈ acc, e.1 ≠ a.data.ipString) →
      ((lines.map fun a => a.data.ipString)).Nodup →
      lines.foldl (fun acc a => mapStore acc a.data.ipString (a.Update now)) acc
        = ((lines.map fun a => (a.data.ipString, a.Update now))).reverse ++ acc := by
  intro lines
  induction lines with
  | nil => intro acc _ _; simp
  | cons a lines ih =>
    intro acc hdisj hnd
    rw [List.map_cons, List.nodup_cons] at hnd
    have hstep : mapStore acc a.data.ipString (a.Update now)
        = (a.data.ipString, a.Update now) :: acc := by
      unfold mapStore
      congr 1
      apply List.filter_eq_self.mpr
      intro e he
      exact decide_eq_true (hdisj a (List.mem_cons_self a lines) e he)
    rw [List.foldl_cons, hstep,
      ih ((a.data.ipString, a.Update now) :: acc) ?_ hnd.2,
      List.map_cons, List.reverse_cons, List.append_assoc,
      List.singleton_append]
    intro b hb e he
    rcases List.mem_cons.mp he with he' | he'
    · rw [he']
      intro hcontra
      apply hnd.1
      have : a.data.ipString = b.data.ipString := hcontra
      rw [this]
      exact List.mem_map.mpr ⟨b, hb, rfl⟩
    · exact hdisj b (List.mem_cons_of_mem a hb) e he'

theorem loadAssets_of_nodup (lines : List Asset) (now : Int)
    (hnd : ((lines.map fun a => a.data.ipString)).Nodup) :
    loadAssets lines now
      = ((lines.map fun a => (a.data.ipString, a.Update now))).reverse := by
  unfold loadAssets
  rw [loadAssets_foldl now lines [] (fun a _ e he => absurd he (List.not_mem_nil e))
      hnd, List.append_nil]

/-- C4: the dump-then-reload round trip.  For a cache whose entries are all
positive (`IsAsset = true`, no negative records), at least one record
present, duplicate-free keys and each entry keyed by its record's IP, one
dump cycle writes exactly one record per line (N lines for N records), and
the startup load of that file produces a cache with exactly N records, all
positive, whose IP-key set matches the original's. -/
theorem c4_round_trip (m : List (String × Asset)) (oldFile : List Asset)
    (now : Int)
    (hpos : ∀ e ∈ m, e.2.IsAsset = true)
    (hkey : ∀ e ∈ m, e.1 = e.2.data.ipString)
    (hnd : (m.map Prod.fst).Nodup)
    (hne : m ≠ []) :
    (dumpCycle m oldFile).length = m.length ∧
    (loadAssets (dumpCycle m oldFile) now).length = m.length ∧
    (∀ e ∈ loadAssets (dumpCycle m oldFile) now, e.2.IsAsset = true) ∧
    (∀ k, k ∈ (loadAssets (dumpCycle m oldFile) now).map Prod.fst ↔
      k ∈ m.map Prod.fst) := by
  have hcol : collectPositives m = m.map Prod.snd :=
    collectPositives_of_all_pos m hpos
  have hfile : dumpCycle m oldFile = m.map Prod.snd := by
    unfold dumpCycle
    rw [hcol, if_neg]
    simp only [List.isEmpty_iff, List.map_eq_nil_iff]
    exact hne
  have hips : ((m.map Prod.snd).map fun a => a.data.ipString) = m.map Prod.fst := by
    rw [List.map_map]
    exact List.map_congr_left fun e he => (hkey e he).symm
  have hndips : ((m.map Prod.snd).map fun a => a.data.ipString).Nodup := by
    rw [hips]; exact hnd
  have hload : loadAssets (m.map Prod.snd) now
      = (((m.map Prod.snd).map fun a => (a.data.ipString, a.Update now))).reverse :=
    loadAssets_of_nodup (m.map Prod.snd) now hndips
  refine ⟨?_, ?_, ?_, ?_⟩
  · rw [hfile, List.length_map]
  · rw [hfile, hload, List.length_reverse, List.length_map, List.length_map]
  · rw [hfile, hload]
    intro e he
    rcases List.mem_map.mp (List.mem_reverse.mp he) with ⟨a, ha, rfl⟩
    rcases List.mem_map.mp ha with ⟨e0, he0, rfl⟩
    exact hpos e0 he0
  · intro k
    rw [hfile, hload, List.map_reverse, List.map_map]
    rw [List.mem_reverse]
    have : ((m.map Prod.snd).map
        (Prod.fst ∘ fun a => (a.data.ipString, a.Update now)))
        = m.map Prod.fst := by
      rw [List.map_map] at hips ⊢
      exact hips
    rw [this]

/-- Witness for C4 at a one-record all-positive cache: the dump writes one
line and the reload yields one positive record under the same IP key. -/
theorem c4_round_trip_witness :
    (∀ e ∈ roundTripSample, e.2.IsAsset = true) ∧
    (∀ e ∈ roundTripSample, e.1 = e.2.data.ipString) ∧
    (roundTripSample.map Prod.fst).Nodup ∧
    roundTripSample ≠ [] ∧
    ((dumpCycle roundTripSample []).length = roundTripSample.length ∧
      (loadAssets (dumpCycle roundTripSample []) 9).length =
        roundTripSample.length ∧
      (∀ e ∈ loadAssets (dumpCycle roundTripSample []) 9, e.2.IsAsset = true) ∧
      (∀ k, k ∈ (loadAssets (dumpCycle roundTripSample []) 9).map Prod.fst ↔
        k ∈ roundTripSample.map Prod.fst)) :=
  ⟨by decide, by decide, by decide, by decide,
    c4_round_trip roundTripSample [] 9 (by decide) (by decide) (by decide)
      (by decide)⟩

/-! ## C5 — Decode counters and what the error carries -/

/-- C5: the claim is false on the code.  A decode failure returns the
underlying `json.Unmarshal` error itself — two different kinds failing with
the same cause yield identical errors, so the returned error cannot name
the kind (there is no `DecodeError` wrapper in the code). -/
theorem c5_counterexample :
    (Decode failingUnmarshal freshHandler "x" Atomic.SuricataE).1
      = (Decode failingUnmarshal freshHandler "x" Atomic.SyslogE).1 ∧
    Atomic.SuricataE ≠ Atomic.SyslogE :=
  ⟨rfl, by decide⟩

/-- C5 (amended): for every raw input and kind, `Decode` increments the
total-events counter first regardless of outcome; on a decode failure of a
handled kind it increments that kind's parse-error counter (the two Windows
kinds share one counter) and returns the underlying unmarshal error
unchanged — the error does not name the kind. -/
theorem c5_amended (u : Unmarshal) (h : Handler) (raw : String)
    (kind : Atomic) :
    (Decode u h raw kind).2.counts.Events = h.counts.Events + 1 ∧
    ∀ f c, kindUnmarshal kind u = some f → f raw = .error c →
      (Decode u h raw kind).1 = Except.error c ∧
      parseErrCounter kind (Decode u h raw kind).2.counts.ParseErrs
        = (parseErrCounter kind h.counts.ParseErrs).map (· + 1) := by
  cases kind
  case SuricataE =>
    refine ⟨?_, ?_⟩
    · cases hu : u.suricata raw <;> simp [Decode, hu]
    · intro f c hf hraw
      rw [show f = u.suricata from (Option.some.inj hf).symm] at hraw
      exact ⟨by simp [Decode, hraw], by simp [Decode, hraw, parseErrCounter]⟩
  case EventLogE =>
    refine ⟨?_, ?_⟩
    · cases hu : u.winlogbeat raw <;> simp [Decode, hu]
    · intro f c hf hraw
      rw [show f = u.winlogbeat from (Option.some.inj hf).symm] at hraw
      exact ⟨by simp [Decode, hraw], by simp [Decode, hraw, parseErrCounter]⟩
  case SysmonE =>
    refine ⟨?_, ?_⟩
    · cases hu : u.winlogbeat raw <;> simp [Decode, hu]
    · intro f c hf hraw
      rw [show f = u.winlogbeat from (Option.some.inj hf).symm] at hraw
      exact ⟨by simp [Decode, hraw], by simp [Decode, hraw, parseErrCounter]⟩
  case SyslogE =>
    refine ⟨?_, ?_⟩
    · cases hu : u.syslog raw <;> simp [Decode, hu]
    · intro f c hf hraw
      rw [show f = u.syslog from (Option.some.inj hf).symm] at hraw
      exact ⟨by simp [Decode, hraw], by simp [Decode, hraw, parseErrCounter]⟩
  case SnoopyE =>
    refine ⟨?_, ?_⟩
    · cases hu : u.snoopy raw <;> simp [Decode, hu]
    · intro f c hf hraw
      rw [show f = u.snoopy from (Option.some.inj hf).symm] at hraw
      exact ⟨by simp [Decode, hraw], by simp [Decode, hraw, parseErrCounter]⟩
  case SimpleE =>
    refine ⟨by simp [Decode], ?_⟩
    intro f c hf
    simp [kindUnmarshal] at hf

/-- Witness for C5 (amended): a Suricata decode failing with cause `"bad"`
on a fresh handler. -/
theorem c5_amended_witness :
    (Decode failingUnmarshal freshHandler "x" Atomic.SuricataE).2.counts.Events
      = freshHandler.counts.Events + 1 ∧
    ((Decode failingUnmarshal freshHandler "x" Atomic.SuricataE).1
        = Except.error "bad" ∧
      parseErrCounter Atomic.SuricataE
          (Decode failingUnmarshal freshHandler "x"
            Atomic.SuricataE).2.counts.ParseErrs
        = (parseErrCounter Atomic.SuricataE
            freshHandler.counts.ParseErrs).map (· + 1)) :=
  ⟨(c5_amended failingUnmarshal freshHandler "x" Atomic.SuricataE).1,
    (c5_amended failingUnmarshal freshHandler "x" Atomic.SuricataE).2
      failingUnmarshal.suricata "bad" rfl rfl⟩

/-! ## C9 — Decode on a kind no case handles -/

/-- C9: a kind outside the four handled `case`s of the `Decode` switch
falls through: the caller gets back the nil event and a nil error (no
failure indication), while the total-events counter is still incremented
and no parse-error counter changes. -/
theorem c9_unhandled_kind (u : Unmarshal) (h : Handler) (raw : String) :
    (Decode u h raw Atomic.SimpleE).1 = Except.ok none ∧
    (Decode u h raw Atomic.SimpleE).2.counts.Events = h.counts.Events + 1 ∧
    (Decode u h raw Atomic.SimpleE).2.counts.ParseErrs = h.counts.ParseErrs :=
  ⟨rfl, rfl, rfl⟩

/-! ## C6 — Enrich error path and field substitution -/

/-- C6: `Enrich` on an event exposing no asset sub-object fails with the
missing-asset-data error carrying exactly that event (the event is not
rewritten — no enriched event is produced); on an event with an asset
sub-object it returns no error, replaces the `asset` field with the
registry lookup's result, and replaces `source`/`destination` only when
they are present: an absent one stays absent, a present one is replaced by
the registry lookup's result (the lookups run in asset, source, destination
order, threading the handler's missing-set updates). -/
theorem c6_enrich (h : Handler) (e : GameEvent) :
    (e.GetAsset = none → Enrich h e = Except.error ⟨e⟩) ∧
    (∀ ga, e.GetAsset = some ga → ∃ e' h',
      Enrich h e = Except.ok (e', h') ∧
      e'.payload = e.payload ∧
      ∃ ga', e'.GetAsset = some ga' ∧
        ga'.Asset = (assetLookup h ga.Asset).1 ∧
        (ga.Source = none → ga'.Source = none) ∧
        (∀ s, ga.Source = some s →
          ga'.Source = some (assetLookup (assetLookup h ga.Asset).2 s).1) ∧
        (ga.Destination = none → ga'.Destination = none) ∧
        (∀ d, ga.Destination = some d → ga'.Destination =
          some (assetLookup
            (match ga.Source with
              | none => (assetLookup h ga.Asset).2
              | some s => (assetLookup (assetLookup h ga.Asset).2 s).2)
            d).1)) := by
  constructor
  · intro hna
    unfold Enrich
    rw [hna]
  · intro ga hga
    rcases hA : assetLookup h ga.Asset with ⟨a, h1⟩
    cases hS : ga.Source with
    | none =>
      cases hD : ga.Destination with
      | none =>
        have hE : Enrich h e
            = Except.ok ({ e with meta := some ⟨a, none, none⟩ }, h1) := by
          unfold Enrich
          rw [hga]
          simp [hA, hS, hD]
        refine ⟨_, _, hE, rfl, ⟨a, none, none⟩, rfl, rfl, ?_, ?_, ?_, ?_⟩
        · intro _; rfl
        · intro s' hs'; simp at hs'
        · intro _; rfl
        · intro d' hd'; simp at hd'
      | some d =>
        rcases hDl : assetLookup h1 d with ⟨d1, h2⟩
        have hE : Enrich h e
            = Except.ok ({ e with meta := some ⟨a, none, some d1⟩ }, h2) := by
          unfold Enrich
          rw [hga]
          simp [hA, hS, hD, hDl]
        refine ⟨_, _, hE, rfl, ⟨a, none, some d1⟩, rfl, rfl, ?_, ?_, ?_, ?_⟩
        · intro _; rfl
        · intro s' hs'; simp at hs'
        · intro hd; simp at hd
        · intro d' hd'
          injection hd' with hdd
          subst hdd
          simp [hDl]
    | some s =>
      rcases hSl : assetLookup h1 s with ⟨s1, h2⟩
      cases hD : ga.Destination with
      | none =>
        have hE : Enrich h e
            = Except.ok ({ e with meta := some ⟨a, some s1, none⟩ }, h2) := by
          unfold Enrich
          rw [hga]
          simp [hA, hS, hD, hSl]
        refine ⟨_, _, hE, rfl, ⟨a, some s1, none⟩, rfl, rfl, ?_, ?_, ?_, ?_⟩
        · intro hs; simp at hs
        · intro s' hs'
          injection hs' with hss
          subst hss
          simp [hSl]
        · intro _; rfl
        · intro d' hd'; simp at hd'
      | some d =>
        rcases hDl : assetLookup h2 d with ⟨d1, h3⟩
        have hE : Enrich h e
            = Except.ok ({ e with meta := some ⟨a, some s1, some d1⟩ }, h3) := by
          unfold Enrich
          rw [hga]
          simp [hA, hS, hD, hSl, hDl]
        refine ⟨_, _, hE, rfl, ⟨a, some s1, some d1⟩, rfl, rfl, ?_, ?_, ?_, ?_⟩
        · intro hs; simp at hs
        · intro s' hs'
          injection hs' with hss
          subst hss
          simp [hSl]
        · intro hd; simp at hd
        · intro d' hd'
          injection hd' with hdd
          subst hdd
          simp [hSl, hDl]

/-- Witness for C6: an event with no asset sub-object errors out carrying
the event; an event whose asset stub has the unknown host `"web02"` and
whose source stub has the registered host `"web01"` (no destination) is
enriched without error, its source replaced by the lookup's result. -/
theorem c6_enrich_witness :
    Enrich web01Handler ⟨none, "raw"⟩ = Except.error ⟨⟨none, "raw"⟩⟩ ∧
    (∃ e' h',
      Enrich web01Handler
          ⟨some ⟨⟨none, "web02"⟩, some ⟨none, "web01"⟩, none⟩, "raw"⟩
        = Except.ok (e', h') ∧
      e'.payload = (⟨some ⟨⟨none, "web02"⟩, some ⟨none, "web01"⟩, none⟩,
        "raw"⟩ : GameEvent).payload ∧
      ∃ ga', e'.GetAsset = some ga' ∧
        ga'.Asset = (assetLookup web01Handler ⟨none, "web02"⟩).1 ∧
        ((some ⟨none, "web01"⟩ : Option MetaAsset) = none →
          ga'.Source = none) ∧
        (∀ s, (some ⟨none, "web01"⟩ : Option MetaAsset) = some s →
          ga'.Source = some
            (assetLookup (assetLookup web01Handler ⟨none, "web02"⟩).2 s).1) ∧
        ((none : Option MetaAsset) = none → ga'.Destination = none) ∧
        (∀ d, (none : Option MetaAsset) = some d → ga'.Destination =
          some (assetLookup
            (match (some ⟨none, "web01"⟩ : Option MetaAsset) with
              | none => (assetLookup web01Handler ⟨none, "web02"⟩).2
              | some s =>
                (assetLookup (assetLookup web01Handler ⟨none, "web02"⟩).2 s).2)
            d).1)) :=
  ⟨(c6_enrich web01Handler ⟨none, "raw"⟩).1 rfl,
    (c6_enrich web01Handler
        ⟨some ⟨⟨none, "web02"⟩, some ⟨none, "web01"⟩, none⟩, "raw"⟩).2
      ⟨⟨none, "web02"⟩, some ⟨none, "web01"⟩, none⟩ rfl⟩

/-! ## C7 — the registry lookup and the missing-lookup set -/

theorem setInsert_mem_self (s : List String) (k : String) :
    k ∈ setInsert s k := by
  unfold setInsert
  by_cases h : k ∈ s <;> simp [h]

theorem setInsert_of_mem {s : List String} {k : String} (h : k ∈ s) :
    setInsert s k = s :=
  if_pos h

theorem setInsert_nodup {s : List String} (h : s.Nodup) (k : String) :
    (setInsert s k).Nodup := by
  unfold setInsert
  by_cases hk : k ∈ s <;> simp [hk, h]

theorem setInsert_count_one {s : List String} (h : s.Nodup) (k : String) :
    (setInsert s k).count k = 1 := by
  by_cases hk : k ∈ s
  · rw [setInsert_of_mem hk]
    exact List.count_eq_one_of_mem h hk
  · unfold setInsert
    rw [if_neg hk, List.count_cons_self,
      List.count_eq_zero_of_not_mem hk]

/-- C7: the registry lookup tries the stub's IP as a key first (a hit there
returns that record's projection and records nothing), then the non-empty
hostname; a hostname hit returns that record's projection and records
nothing; a hostname that matches no key is recorded in the missing-lookup
set — deduplicated, so it is present exactly once even after a repeated
identical lookup — and the original stub is returned unchanged; an IP-keyed
miss with no hostname is never recorded. -/
theorem c7_asset_lookup (h : Handler) (a : MetaAsset) :
    (∀ ip r, a.ip = some ip → h.assets ip = some r →
      assetLookup h a = (r.Asset, h)) ∧
    (∀ r, ipLookupMiss h a → a.host ≠ "" → h.assets a.host = some r →
      assetLookup h a = (r.Asset, h)) ∧
    (ipLookupMiss h a → a.host ≠ "" → h.assets a.host = none →
      (assetLookup h a).1 = a ∧
      (assetLookup h a).2.missingLookupSet
        = setInsert h.missingLookupSet a.host ∧
      a.host ∈ (assetLookup h a).2.missingLookupSet ∧
      (assetLookup (assetLookup h a).2 a).2.missingLookupSet
        = (assetLookup h a).2.missingLookupSet ∧
      (h.missingLookupSet.Nodup →
        (assetLookup h a).2.missingLookupSet.Nodup ∧
        (assetLookup h a).2.missingLookupSet.count a.host = 1)) ∧
    (ipLookupMiss h a → a.host = "" → assetLookup h a = (a, h)) := by
  refine ⟨?_, ?_, ?_, ?_⟩
  · intro ip r hipeq hfound
    simp [assetLookup, hipeq, hfound]
  · intro r hipm hh hfound
    cases hip : a.ip with
    | none => simp [assetLookup, hip, hh, hfound]
    | some ip =>
      have hm : h.assets ip = none := by
        unfold ipLookupMiss at hipm
        rw [hip] at hipm
        exact hipm
      simp [assetLookup, hip, hm, hh, hfound]
  · intro hipm hh hfound
    have hres : assetLookup h a =
        (a, { h with missingLookupSet := setInsert h.missingLookupSet a.host }) := by
      cases hip : a.ip with
      | none => simp [assetLookup, hip, hh, hfound]
      | some ip =>
        have hm : h.assets ip = none := by
          unfold ipLookupMiss at hipm
          rw [hip] at hipm
          exact hipm
        simp [assetLookup, hip, hm, hh, hfound]
    have hins : setInsert (setInsert h.missingLookupSet a.host) a.host
        = setInsert h.missingLookupSet a.host :=
      setInsert_of_mem (setInsert_mem_self _ _)
    have hres2 : assetLookup
        { h with missingLookupSet := setInsert h.missingLookupSet a.host } a
        = (a, { h with missingLookupSet := setInsert h.missingLookupSet a.host }) := by
      cases hip : a.ip with
      | none => simp [assetLookup, hip, hh, hfound, hins]
      | some ip =>
        have hm : h.assets ip = none := by
          unfold ipLookupMiss at hipm
          rw [hip] at hipm
          exact hipm
        simp [assetLookup, hip, hm, hh, hfound, hins]
    rw [hres]
    refine ⟨rfl, rfl, setInsert_mem_self _ _, ?_, ?_⟩
    · show (assetLookup { h with missingLookupSet := setInsert h.missingLookupSet a.host } a).2.missingLookupSet = setInsert h.missingLookupSet a.host
      rw [hres2]
    · intro hnd
      exact ⟨setInsert_nodup hnd _, setInsert_count_one hnd _⟩
  · intro hipm hh
    cases hip : a.ip with
    | none => simp [assetLookup, hip, hh]
    | some ip =>
      have hm : h.assets ip = none := by
        unfold ipLookupMiss at hipm
        rw [hip] at hipm
        exact hipm
      simp [assetLookup, hip, hm, hh]

/-- Witness for C7: with a registry holding `web01Record` under keys
`"10.0.0.1"` and `"web01"`, a stub with unknown host `"web02"` and no IP is
returned unchanged and `"web02"` enters the missing set exactly once, even
after a second identical lookup. -/
theorem c7_asset_lookup_witness :
    ipLookupMiss web01Handler ⟨none, "web02"⟩ ∧
    ("web02" : String) ≠ "" ∧
    web01Handler.assets "web02" = none ∧
    ((assetLookup web01Handler ⟨none, "web02"⟩).1 = ⟨none, "web02"⟩ ∧
      (assetLookup web01Handler ⟨none, "web02"⟩).2.missingLookupSet
        = setInsert web01Handler.missingLookupSet "web02" ∧
      ("web02" : String) ∈
        (assetLookup web01Handler ⟨none, "web02"⟩).2.missingLookupSet ∧
      (assetLookup (assetLookup web01Handler ⟨none, "web02"⟩).2
          ⟨none, "web02"⟩).2.missingLookupSet
        = (assetLookup web01Handler ⟨none, "web02"⟩).2.missingLookupSet ∧
      (web01Handler.missingLookupSet.Nodup →
        (assetLookup web01Handler ⟨none, "web02"⟩).2.missingLookupSet.Nodup ∧
        (assetLookup web01Handler
            ⟨none, "web02"⟩).2.missingLookupSet.count "web02" = 1)) :=
  ⟨trivial, by decide, rfl,
    (c7_asset_lookup web01Handler ⟨none, "web02"⟩).2.2.1 trivial (by decide) rfl⟩

/-! ## C8 — housekeeper timer interaction -/

/-- C8: the claim is false on the code, and the code contradicts the
intent its own prune configuration and logging express.  Because the loop
body re-creates BOTH tickers at the top of every iteration, the timers are
not independent: with the default intervals (prune 30 s, dump 5 s) the dump
ticker always fires first and the fresh prune ticker is thrown away, so the
prune branch is never reached — for every cancellation time, fuel and start
time, the run's trace contains no prune event.  Concretely, a run with
cancellation at t = 100 s takes eight dump branches in its first eight
iterations and never a prune branch. -/
theorem c8_prune_never_runs :
    (∀ cancelAt fuel now, HkEvent.prune ∉ hkRun 30 5 cancelAt fuel now) ∧
    hkRun 30 5 100 8 0 = [.dump, .dump, .dump, .dump, .dump, .dump, .dump,
      .dump] := by
  constructor
  · intro c fuel
    induction fuel with
    | zero =>
      intro now h
      simp [hkRun] at h
    | succ n ih =>
      intro now
      unfold hkRun hkStep
      by_cases hc : c ≤ min (now + 30) (now + 5)
      · rw [if_pos hc]
        simp
      · rw [if_neg hc, if_pos (by omega : now + 5 ≤ now + 30)]
        simp only [List.mem_cons]
        intro h
        rcases h with h | h
        · cases h
        · exact ih (now + 5) h
  · decide

/-! ## C10 — construction with a missing persistence file -/

theorem scanLines_ok_iff (now : Int) :
    ∀ (lines : List (Except String Asset)) (acc : List (String × Asset)),
      (∃ s, scanLines now lines acc = Except.ok s) ↔
        ∀ l ∈ lines, ∃ a, l = Except.ok a := by
  intro lines
  induction lines with
  | nil => intro acc; simp [scanLines]
  | cons l rest ih =>
    intro acc
    cases l with
    | error msg => simp [scanLines]
    | ok a => simp [scanLines, List.forall_mem_cons, ih]

theorem scanLines_map_ok (now : Int) :
    ∀ (lines : List Asset) (acc : List (String × Asset)),
      scanLines now (lines.map Except.ok) acc = Except.ok
        (lines.foldl
          (fun acc a => mapStore acc a.data.ipString (a.Update now)) acc) := by
  intro lines
  induction lines with
  | nil => intro acc; rfl
  | cons a rest ih => intro acc; exact ih _

/-- `scanLines` agrees with `loadAssets` (the loader used for the C4 round
trip) whenever every line unmarshals. -/
theorem scanLines_eq_loadAssets (lines : List Asset) (now : Int) :
    scanLines now (lines.map Except.ok) [] = Except.ok (loadAssets lines now) :=
  scanLines_map_ok now lines []

/-- C10: with a persistence path configured, `NewGlobalCache`'s setup fails
fatally when `os.Stat` errors (in particular when no file exists at the
path) — the stat error is returned and no cache state is produced, rather
than starting empty.  Only an existing regular file lets construction
proceed, and precisely when it also opens and every one of its lines
unmarshals: the `os.Open` error and a malformed line abort construction
fatally too. -/
theorem c10_missing_file_fatal (path : String) (fs : String → Option FileNode)
    (now : Int) (hp : path ≠ "") :
    (fs path = none → setupPersistence path fs now
      = Except.error (ConstructErr.statErr path)) ∧
    ((∃ s, setupPersistence path fs now = Except.ok s) ↔
      ∃ node, fs path = some node ∧ node.IsDir = false ∧
        node.openFails = false ∧ ∀ l ∈ node.lines, ∃ a, l = Except.ok a) := by
  constructor
  · intro hf
    unfold setupPersistence
    rw [if_neg hp, hf]
  · cases hf : fs path with
    | none =>
      have hred : setupPersistence path fs now
          = Except.error (ConstructErr.statErr path) := by
        unfold setupPersistence
        rw [if_neg hp, hf]
      rw [hred]
      simp
    | some node =>
      by_cases hd : node.IsDir = true
      · have hred : setupPersistence path fs now
            = Except.error (ConstructErr.isDirErr path) := by
          unfold setupPersistence
          rw [if_neg hp, hf]
          simp [hd]
        rw [hred]
        simp [hd]
      · simp only [Bool.not_eq_true] at hd
        by_cases ho : node.openFails = true
        · have hred : setupPersistence path fs now
              = Except.error (ConstructErr.openErr path) := by
            unfold setupPersistence
            rw [if_neg hp, hf]
            simp [hd, ho]
          rw [hred]
          simp [ho]
        · simp only [Bool.not_eq_true] at ho
          have hred : setupPersistence path fs now
              = scanLines now node.lines [] := by
            unfold setupPersistence
            rw [if_neg hp, hf]
            simp [hd, ho]
          rw [hred]
          constructor
          · intro hok
            exact ⟨node, rfl, hd, ho, (scanLines_ok_iff now node.lines []).mp hok⟩
          · rintro ⟨node', hn, _, _, hall⟩
            injection hn with hnn
            subst hnn
            exact (scanLines_ok_iff now node.lines []).mpr hall

/-- Witness for C10: a filesystem with no node at `"assets.json"` makes the
setup fail with the stat error, and no `.ok` state exists. -/
theorem c10_missing_file_fatal_witness :
    ("assets.json" : String) ≠ "" ∧
    (((fun _ => (none : Option FileNode)) "assets.json" = none →
        setupPersistence "assets.json" (fun _ => none) 0
          = Except.error (ConstructErr.statErr "assets.json")) ∧
      ((∃ s, setupPersistence "assets.json" (fun _ => none) 0 = Except.ok s) ↔
        ∃ node, (fun _ => (none : Option FileNode)) "assets.json" = some node ∧
          node.IsDir = false ∧ node.openFails = false ∧
          ∀ l ∈ node.lines, ∃ a, l = Except.ok a)) :=
  ⟨by decide,
    c10_missing_file_fatal "assets.json" (fun _ => none) 0 (by decide)⟩
